import Mathlib

/-!
Verification of the leeta geolocation service against its specification.

This file shallowly embeds the core of the Go repository:
  * the domain entity `Location` and its typed errors
    (src/internal/config/config_test.go, appended `domain` package),
  * the unit-conversion helpers of the distance engine
    (src/pkg/geospatial/haversine.go),
  * the in-memory repository (src/internal/repository/memory/location_repository.go),
  * the service layer (src/internal/service/location_service.go),
  * the postgres repository's query semantics
    (src/internal/repository/postgres/location_repository.go) and the
    config-driven backend dispatch (src/unnamed/part_005, `NewRepositoryFromConfig`).

Go `float64` values are modelled as exact rationals (`ℚ`); `time.Time` is
modelled as an integer timestamp whose zero value is `0`.  Go maps are
modelled as association lists whose list order stands for the (unspecified,
per-iteration randomized) map iteration order.  The trigonometric haversine
distance itself is kept as an abstract parameter `dist : Coordinate →
Coordinate → ℚ`; every algorithmic statement below is proved for an
arbitrary such function, with the one fact the code relies on — that a
haversine distance is always below `math.MaxFloat64` — taken as an explicit
hypothesis where needed.
-/

instance {ε α : Type} [DecidableEq ε] [DecidableEq α] :
    DecidableEq (Except ε α) := fun a b =>
  match a, b with
  | .ok x, .ok y =>
    if h : x = y then .isTrue (by rw [h]) else .isFalse (by simp [h])
  | .error x, .error y =>
    if h : x = y then .isTrue (by rw [h]) else .isFalse (by simp [h])
  | .ok _, .error _ => .isFalse (by simp)
  | .error _, .ok _ => .isFalse (by simp)

/-- `geospatial.Coordinate` (src/pkg/geospatial/haversine.go lines 11-14):
a latitude/longitude pair of `float64`, modelled as rationals. -/
structure Coordinate where
  latitude : ℚ
  longitude : ℚ
deriving DecidableEq

/-- `domain.Location` (src/internal/config/config_test.go lines 217-223):
`ID` and `Name` are strings, the coordinate components are `float64`
(modelled `ℚ`), `CreatedAt` is a timestamp (modelled `ℤ`, Go zero value
`time.Time{}` modelled as `0`). -/
structure Location where
  id : String
  name : String
  latitude : ℚ
  longitude : ℚ
  createdAt : ℤ
deriving DecidableEq

/-- The coordinate of a stored location, as built at
src/internal/repository/memory/location_repository.go line 95. -/
def Location.coord (l : Location) : Coordinate :=
  { latitude := l.latitude, longitude := l.longitude }

/-- The five typed domain errors
(src/internal/config/config_test.go lines 225-231). -/
inductive DomainError where
  | emptyName
  | invalidLatitude
  | invalidLongitude
  | locationNotFound
  | locationExists
deriving DecidableEq

/-! ### Distance-engine unit conversions (src/pkg/geospatial/haversine.go)

The Go constants are written `0.621371` etc.; their names end in `Ratio`,
which Lean identifier hygiene in this development avoids, so they are
embedded as `ratioKmToMiles` / `ratioMilesToKm` with the exact decimal
values of the source constants. -/

/-- `KmToMilesRatio = 0.621371` (haversine.go line 42). -/
def ratioKmToMiles : ℚ := 621371 / 1000000

/-- `MilesToKmRatio = 1.609344` (haversine.go line 44). -/
def ratioMilesToKm : ℚ := 1609344 / 1000000

/-- `KmToMiles` (haversine.go lines 49-51): a pure multiplication. -/
def KmToMiles (km : ℚ) : ℚ := km * ratioKmToMiles

/-- `MilesToKm` (haversine.go lines 59-61): a pure multiplication. -/
def MilesToKm (miles : ℚ) : ℚ := miles * ratioMilesToKm

/-- `math.MaxFloat64 = (2 - 2^-52) · 2^1023 = 2^1024 - 2^971`, the initial
minimum used by the nearest-neighbor scans, written as an explicit
numeral (see `maxFloat64_eq`). -/
def maxFloat64 : ℚ := 179769313486231570814527423731704356798070567525844996598917476803157260780028538760589558632766878171540458953514382464234321326889464182768467546703537516986049910576551282076245490090389328944075868508455133942304583236903222948165808559332123348274797826204144723168738177180919299881250404026184124858368

/-- The numeral above is `2^1024 - 2^971`. -/
theorem maxFloat64_eq : maxFloat64 = (2 : ℚ) ^ 1024 - 2 ^ 971 := by
  unfold maxFloat64
  norm_num

/-! ### The in-memory repository

`InMemoryLocationRepository` (src/internal/repository/memory/
location_repository.go) holds two Go maps and a counter.  Each map is
modelled as an association list; the list order models the map's iteration
order, which Go randomizes on every range loop. -/

/-- The state of `InMemoryLocationRepository` (location_repository.go
lines 12-17): `locations` keyed by name, `locationsById` keyed by ID,
and the `nextID` counter. -/
structure MemStore where
  locations : List (String × Location)
  locationsById : List (String × Location)
  nextID : Nat
deriving DecidableEq

/-- `NewInMemoryLocationRepository` (lines 19-25): empty maps, counter 1. -/
def emptyMemStore : MemStore :=
  { locations := [], locationsById := [], nextID := 1 }

/-- Go map read `m[k]`. -/
def mapGet (m : List (String × Location)) (k : String) : Option Location :=
  (m.find? (fun p => p.1 == k)).map Prod.snd

/-- Go map write `m[k] = v`: replaces the entry if the key is present,
otherwise appends it. -/
def mapPut (m : List (String × Location)) (k : String) (v : Location) :
    List (String × Location) :=
  if (m.find? (fun p => p.1 == k)).isSome then
    m.map (fun p => if p.1 == k then (k, v) else p)
  else m ++ [(k, v)]

/-- Go `delete(m, k)`. -/
def mapDel (m : List (String × Location)) (k : String) :
    List (String × Location) :=
  m.filter (fun p => p.1 != k)

/-- `Save` (location_repository.go lines 27-43) on a non-nil argument:
fail with `ErrLocationExists` when the name key is present; otherwise
assign `fmt.Sprintf("%d", r.nextID)` as the ID when the ID is empty, bump
the counter, and insert into both maps.  The store is returned unchanged
on the error path, mirroring the early `return` before any mutation. -/
def memSave (location : Location) (r : MemStore) :
    Except DomainError Unit × MemStore :=
  if (mapGet r.locations location.name).isSome then
    (.error .locationExists, r)
  else
    let location' :=
      if location.id = "" then { location with id := toString r.nextID }
      else location
    let nextID' := if location.id = "" then r.nextID + 1 else r.nextID
    (.ok (),
      { locations := mapPut r.locations location.name location'
        locationsById := mapPut r.locationsById location'.id location'
        nextID := nextID' })

/-- Go dereferences a nil pointer by panicking rather than returning.
`GoResult` distinguishes a run-time fault from a returned value. -/
inductive GoResult (α : Type) where
  | fault
  | returns (a : α)
deriving DecidableEq

/-- `Save` as callable with a possibly-nil `*domain.Location`
(location_repository.go line 27).  Line 31 reads `location.Name` before
any nil guard, so a nil argument faults (nil-pointer dereference panic)
instead of producing a return value. -/
def memSavePtr (location : Option Location) (r : MemStore) :
    GoResult (Except DomainError Unit × MemStore) :=
  match location with
  | none => .fault
  | some loc => .returns (memSave loc r)

/-- `FindByName` (location_repository.go lines 45-55). -/
def memFindByName (name : String) (r : MemStore) :
    Except DomainError Location :=
  match mapGet r.locations name with
  | some location => .ok location
  | none => .error .locationNotFound

/-- `FindAll` (location_repository.go lines 57-67): the values of the
name-keyed map, in iteration order. -/
def memFindAll (r : MemStore) : List Location :=
  r.locations.map Prod.snd

/-- `Delete` (location_repository.go lines 69-79): fails with
`ErrLocationNotFound` when the name is absent; otherwise removes the
entry from the name-keyed map.  The source deletes from `r.locations`
only — `r.locationsById` is left untouched (line 77). -/
def memDelete (name : String) (r : MemStore) :
    Except DomainError Unit × MemStore :=
  if (mapGet r.locations name).isSome then
    (.ok (), { r with locations := mapDel r.locations name })
  else
    (.error .locationNotFound, r)

/-- `FindByID` (location_repository.go lines 107-117). -/
def memFindByID (i : String) (r : MemStore) : Except DomainError Location :=
  match mapGet r.locationsById i with
  | some location => .ok location
  | none => .error .locationNotFound

/-- The loop of `FindNearest` (location_repository.go lines 92-102):
starting from `nearest = nil`, `minDistance = math.MaxFloat64`, each
stored location's distance to the query point is compared strictly
against the running minimum. -/
def nearestFold (dist : Coordinate → Coordinate → ℚ) (q : Coordinate) :
    Option Location × ℚ → List Location → Option Location × ℚ
  | acc, [] => acc
  | acc, location :: rest =>
    let d := dist q location.coord
    if d < acc.2 then nearestFold dist q (some location, d) rest
    else nearestFold dist q acc rest

/-- `FindNearest` (location_repository.go lines 81-105): `NotFound` on an
empty store, otherwise the linear scan above over the map's values in
iteration order.  The returned pointer may in principle be nil (modelled
by the `Option`), and the distance engine is the parameter `dist`. -/
def memFindNearest (dist : Coordinate → Coordinate → ℚ)
    (latitude longitude : ℚ) (r : MemStore) :
    Except DomainError (Option Location × ℚ) :=
  if r.locations.isEmpty then .error .locationNotFound
  else .ok (nearestFold dist { latitude := latitude, longitude := longitude }
    (none, maxFloat64) (r.locations.map Prod.snd))

/-! ### The domain constructor and the service layer

`domain.NewLocation` (src/internal/config/config_test.go lines 233-246)
trims the name with `strings.TrimSpace` and then calls
`validator.ValidateStruct` on the struct tags
`Name: required,min=1`, `Latitude: required,min=-90,max=90`,
`Longitude: required,min=-180,max=180`.  The package
`pkg/validator` itself is not among the provided sources, so its
behaviour is modelled from the spec. -/

/-- Go `strings.TrimSpace` (config_test.go line 235): the input with all
leading and trailing whitespace removed, written over the character
list so that it evaluates. -/
def trimSpace (s : String) : String :=
  String.mk
    (((s.data.dropWhile Char.isWhitespace).reverse.dropWhile
        Char.isWhitespace).reverse)

/-- Modelled from the spec: the implementation of
`pkg/validator.ValidateStruct` is missing from the sources (only its
call sites and the struct tags are present).  Spec §7: construction
fails "when name is empty after trimming, or latitude/longitude fall
outside their valid ranges", the ranges being `-90 ≤ latitude ≤ 90` and
`-180 ≤ longitude ≤ 180` (spec §3); each failure is the corresponding
typed error of the `domain` package. -/
def validateLocation (l : Location) : Option DomainError :=
  if l.name = "" then some .emptyName
  else if l.latitude < -90 ∨ 90 < l.latitude then some .invalidLatitude
  else if l.longitude < -180 ∨ 180 < l.longitude then some .invalidLongitude
  else none

/-- `domain.NewLocation` (config_test.go lines 233-246): build the struct
with the trimmed name and `CreatedAt = time.Now()` (the current time is
the explicit parameter `now`), then validate; return the validation
error, if any, without touching any store. -/
def NewLocation (name : String) (latitude longitude : ℚ) (now : ℤ) :
    Except DomainError Location :=
  let location : Location :=
    { id := "", name := trimSpace name, latitude := latitude,
      longitude := longitude, createdAt := now }
  match validateLocation location with
  | some e => .error e
  | none => .ok location

/-- The repository operations the service can invoke, recorded as a trace
so that "no store operation is invoked" is expressible. -/
inductive RepoOp where
  | opFindByName (name : String)
  | opSave
  | opFindAll
  | opDelete (name : String)
  | opFindNearest
deriving DecidableEq

/-- `LocationService.CreateLocation`
(src/internal/service/location_service.go lines 19-42), instantiated on
the in-memory repository: construct and validate via `NewLocation`
(returning its error before any repository call), then
`existing, _ := s.repo.FindByName(name)` and fail with
`ErrLocationExists` when a location was found, then `s.repo.Save`.
Returns the result, the repository state after the call, and the trace
of repository operations invoked. -/
def CreateLocation (name : String) (latitude longitude : ℚ) (now : ℤ)
    (r : MemStore) : Except DomainError Location × MemStore × List RepoOp :=
  match NewLocation name latitude longitude now with
  | .error e => (.error e, r, [])
  | .ok location =>
    match memFindByName name r with
    | .ok _ => (.error .locationExists, r, [.opFindByName name])
    | .error _ =>
      match memSave location r with
      | (.error e, r') => (.error e, r', [.opFindByName name, .opSave])
      | (.ok _, r') => (.ok location, r', [.opFindByName name, .opSave])

/-! ### The postgres repository and the backend dispatch

`PostgresLocationRepository` (src/internal/repository/postgres/
location_repository.go) delegates storage to the external engine.  The
database is modelled as the list of its rows (in the engine's internal
order) together with the `SERIAL` id counter; the nearest-neighbor SQL
query `SELECT ... ORDER BY geom <-> ST_SetSRID(ST_MakePoint($1, $2),
4326)::geography LIMIT 1` is modelled by its documented semantics: the
engine returns the first row of the table ordered by its own geography
distance to the query point, together with that computed distance
(`ST_Distance`).  The engine's distance function is the abstract
parameter `engineDist`. -/

/-- One row of the `locations` table (scripts/migrations/
20250728210121_initial_schema.sql): integer `SERIAL` id, unique name,
coordinates, creation timestamp.  The derived `geom` column is a
function of the coordinates and needs no separate field. -/
structure PgRow where
  rowId : Nat
  name : String
  latitude : ℚ
  longitude : ℚ
  createdAt : ℤ
deriving DecidableEq

/-- The external database state: rows plus the `SERIAL` counter. -/
structure PgDB where
  rows : List PgRow
  nextId : Nat
deriving DecidableEq

/-- The coordinate stored in a row. -/
def PgRow.coord (r : PgRow) : Coordinate :=
  { latitude := r.latitude, longitude := r.longitude }

/-- Scanning a row into a `domain.Location`: the integer id is rendered
with `fmt.Sprintf("%d", id)` (location_repository.go lines 62, 88, 117,
174). -/
def PgRow.toLocation (r : PgRow) : Location :=
  { id := toString r.rowId, name := r.name, latitude := r.latitude,
    longitude := r.longitude, createdAt := r.createdAt }

/-- `FindByName` of the postgres repository (lines 40-64):
`WHERE name = $1`, `ErrNoRows` mapped to `ErrLocationNotFound`. -/
def pgFindByName (name : String) (db : PgDB) : Except DomainError Location :=
  match db.rows.find? (fun r => r.name == name) with
  | some r => .ok r.toLocation
  | none => .error .locationNotFound

/-- `Save` of the postgres repository (lines 20-38): an existence check
by name first, surfacing `ErrLocationExists`; otherwise `INSERT ...
RETURNING id, created_at` — the engine assigns the `SERIAL` id and the
`CURRENT_TIMESTAMP` default (parameter `dbNow`), ignoring any id the
caller had set. -/
def pgSave (location : Location) (dbNow : ℤ) (db : PgDB) :
    Except DomainError Unit × PgDB :=
  match pgFindByName location.name db with
  | .ok _ => (.error .locationExists, db)
  | .error _ =>
    let newRow : PgRow :=
      { rowId := db.nextId, name := location.name,
        latitude := location.latitude, longitude := location.longitude,
        createdAt := dbNow }
    (.ok (), { rows := db.rows ++ [newRow], nextId := db.nextId + 1 })

/-- The `ORDER BY geom <-> point LIMIT 1` clause: the row of the table
minimizing the engine's distance to the query point, the engine breaking
ties by its internal row order (first minimal row wins). -/
def pgTopRow (engineDist : Coordinate → Coordinate → ℚ) (q : Coordinate)
    (first : PgRow) (rest : List PgRow) : PgRow :=
  rest.foldl
    (fun best r =>
      if engineDist q r.coord < engineDist q best.coord then r else best)
    first

/-- `FindNearest` of the postgres repository (lines 148-176): one query;
an empty result set (`ErrNoRows`) maps to `ErrLocationNotFound`,
otherwise the top row by engine distance is scanned together with its
`ST_Distance` value. -/
def pgFindNearest (engineDist : Coordinate → Coordinate → ℚ)
    (latitude longitude : ℚ) (db : PgDB) :
    Except DomainError (Option Location × ℚ) :=
  let q : Coordinate := { latitude := latitude, longitude := longitude }
  match db.rows with
  | [] => .error .locationNotFound
  | first :: rest =>
    let best := pgTopRow engineDist q first rest
    .ok (some best.toLocation, engineDist q best.coord)

/-- The configured backend: `domain.LocationRepository` is implemented by
either the in-memory store or the postgres store (spec §9: selected once
at startup). -/
inductive Repo where
  | mem (s : MemStore)
  | pg (db : PgDB)
deriving DecidableEq

/-- `NewRepositoryFromConfig` (src/unnamed/part_005, `repository`
package): dispatch on `cfg.Storage`; `"memory"` yields a fresh in-memory
repository, `"postgres"` connects to the external database (modelled by
the given `db` state), anything else is a configuration error. -/
def NewRepositoryFromConfig (storage : String) (db : PgDB) :
    Except String Repo :=
  match storage with
  | "memory" => .ok (.mem emptyMemStore)
  | "postgres" => .ok (.pg db)
  | other => .error ("unsupported repository type: " ++ other)

/-- The in-process/external work a `FindNearest` call performs:
`havCalls` counts invocations of the in-process distance engine
(`geospatial.HaversineDistance`), `engineQueries` counts round trips to
the external engine. -/
structure NearestCost where
  engineQueries : Nat
  havCalls : Nat
deriving DecidableEq

/-- `LocationService.FindNearest`
(src/internal/service/location_service.go lines 67-69) simply returns
`s.repo.FindNearest(latitude, longitude)`; the dispatch selects the
backend's implementation.  The in-memory scan (location_repository.go
lines 92-102) calls `geospatial.HaversineDistance` once per stored
location and issues no external query; the postgres implementation
issues exactly one `QueryRow` and computes no in-process distance. -/
def serviceFindNearest (dist engineDist : Coordinate → Coordinate → ℚ)
    (repo : Repo) (latitude longitude : ℚ) :
    Except DomainError (Option Location × ℚ) × NearestCost :=
  match repo with
  | .mem s =>
    (memFindNearest dist latitude longitude s,
      { engineQueries := 0, havCalls := s.locations.length })
  | .pg db =>
    (pgFindNearest engineDist latitude longitude db,
      { engineQueries := 1, havCalls := 0 })

/-! ### The pointer-level view of the in-memory store

The Go store holds `map[string]*domain.Location`: the maps store
pointers, and every read operation returns those pointers unchanged, so
a caller holds a reference into the store's own state.  To talk about
mutation through a returned reference, this second, heap-explicit model
of the same source file makes the pointers visible: the heap is a list
of `Location` values and a pointer is an index into it. -/

/-- The in-memory repository with an explicit heap: `byName` and `byId`
map keys to heap addresses (Go: to `*domain.Location`). -/
structure PtrStore where
  heap : List Location
  byName : List (String × Nat)
  byId : List (String × Nat)
  nextID : Nat
deriving DecidableEq

/-- The empty pointer-level store (`NewInMemoryLocationRepository`). -/
def emptyPtrStore : PtrStore :=
  { heap := [], byName := [], byId := [], nextID := 1 }

/-- Reading through a pointer: `*p`. -/
def PtrStore.deref (s : PtrStore) (p : Nat) : Option Location :=
  s.heap.get? p

/-- A caller writing through a pointer it holds: `*p = l`.  This is not
a store operation — it is what a caller can do to a returned
`*domain.Location`. -/
def PtrStore.write (s : PtrStore) (p : Nat) (l : Location) : PtrStore :=
  { s with heap := s.heap.set p l }

/-- Pointer-level `Save` (location_repository.go lines 27-43): the
argument value is placed on the heap (Go: the caller passes the pointer;
allocation happened at the caller, the store retains the pointer) and
both maps record its address. -/
def ptrSave (location : Location) (s : PtrStore) :
    Except DomainError Unit × PtrStore :=
  if ((s.byName.find? (fun p => p.1 == location.name)).isSome) then
    (.error .locationExists, s)
  else
    let location' :=
      if location.id = "" then { location with id := toString s.nextID }
      else location
    let nextID' := if location.id = "" then s.nextID + 1 else s.nextID
    let addr := s.heap.length
    (.ok (),
      { heap := s.heap ++ [location']
        byName := s.byName ++ [(location.name, addr)]
        byId := s.byId ++ [(location'.id, addr)]
        nextID := nextID' })

/-- Pointer-level `FindByName` (lines 45-55): returns the stored pointer
itself, not a copy of the pointee. -/
def ptrFindByName (name : String) (s : PtrStore) : Except DomainError Nat :=
  match (s.byName.find? (fun p => p.1 == name)).map Prod.snd with
  | some addr => .ok addr
  | none => .error .locationNotFound

/-- What a caller observes for a name: the pointee of the returned
pointer. -/
def ptrObserve (name : String) (s : PtrStore) : Option Location :=
  match ptrFindByName name s with
  | .ok addr => s.deref addr
  | .error _ => none

/-! ### Helper lemmas about the nearest-neighbor scan -/

/-- The running minimum never increases. -/
theorem nearestFold_snd_le (dist : Coordinate → Coordinate → ℚ)
    (q : Coordinate) :
    ∀ (ls : List Location) (acc : Option Location × ℚ),
      (nearestFold dist q acc ls).2 ≤ acc.2 := by
  intro ls
  induction ls with
  | nil => intro acc; simp [nearestFold]
  | cons l rest ih =>
    intro acc
    simp only [nearestFold]
    split
    next h => exact le_trans (ih _) (le_of_lt h)
    next h => exact ih acc

/-- The final minimum is at most the distance of every scanned location. -/
theorem nearestFold_min (dist : Coordinate → Coordinate → ℚ)
    (q : Coordinate) :
    ∀ (ls : List Location) (acc : Option Location × ℚ),
      ∀ l ∈ ls, (nearestFold dist q acc ls).2 ≤ dist q l.coord := by
  intro ls
  induction ls with
  | nil => intro acc l hl; cases hl
  | cons l₀ rest ih =>
    intro acc l hl
    rcases List.mem_cons.mp hl with hhead | htail
    · subst hhead
      simp only [nearestFold]
      split
      next h => exact nearestFold_snd_le dist q rest _
      next h =>
        exact le_trans (nearestFold_snd_le dist q rest acc) (le_of_not_lt h)
    · simp only [nearestFold]
      split
      next h => exact ih _ l htail
      next h => exact ih acc l htail

/-- When the final state carries a location, its recorded distance is the
final minimum and the location was scanned (or was already in the
accumulator). -/
theorem nearestFold_some (dist : Coordinate → Coordinate → ℚ)
    (q : Coordinate) :
    ∀ (ls : List Location) (acc : Option Location × ℚ),
      (∀ L, acc.1 = some L → acc.2 = dist q L.coord) →
      ∀ L, (nearestFold dist q acc ls).1 = some L →
        (nearestFold dist q acc ls).2 = dist q L.coord ∧
          (L ∈ ls ∨ acc.1 = some L) := by
  intro ls
  induction ls with
  | nil =>
    intro acc hacc L hL
    exact ⟨hacc L hL, Or.inr hL⟩
  | cons l₀ rest ih =>
    intro acc hacc L hL
    simp only [nearestFold] at hL ⊢
    by_cases h : dist q l₀.coord < acc.2
    · rw [if_pos h] at hL ⊢
      have hacc' : ∀ L', (Prod.fst (some l₀, dist q l₀.coord) = some L') →
          (Prod.snd (some l₀, dist q l₀.coord) : ℚ) = dist q L'.coord := by
        intro L' hL'
        simp only at hL'
        cases hL'
        rfl
      rcases ih _ hacc' L hL with ⟨h1, h2⟩
      refine ⟨h1, ?_⟩
      rcases h2 with h2 | h2
      · exact Or.inl (List.mem_cons_of_mem _ h2)
      · simp only at h2
        cases h2
        exact Or.inl (List.mem_cons_self _ _)
    · rw [if_neg h] at hL ⊢
      rcases ih acc hacc L hL with ⟨h1, h2⟩
      refine ⟨h1, ?_⟩
      rcases h2 with h2 | h2
      · exact Or.inl (List.mem_cons_of_mem _ h2)
      · exact Or.inr h2

/-- Once the accumulator carries a location, it never reverts to `none`. -/
theorem nearestFold_isSome_acc (dist : Coordinate → Coordinate → ℚ)
    (q : Coordinate) :
    ∀ (ls : List Location) (acc : Option Location × ℚ),
      acc.1.isSome → ((nearestFold dist q acc ls).1).isSome := by
  intro ls
  induction ls with
  | nil => intro acc h; exact h
  | cons l₀ rest ih =>
    intro acc h
    simp only [nearestFold]
    split
    next => exact ih _ rfl
    next => exact ih acc h

/-- If some scanned location beats the initial minimum, the final state
carries a location. -/
theorem nearestFold_isSome (dist : Coordinate → Coordinate → ℚ)
    (q : Coordinate) :
    ∀ (ls : List Location) (acc : Option Location × ℚ),
      (∃ l ∈ ls, dist q l.coord < acc.2) →
      ((nearestFold dist q acc ls).1).isSome := by
  intro ls
  induction ls with
  | nil => intro acc h; rcases h with ⟨l, hl, _⟩; cases hl
  | cons l₀ rest ih =>
    intro acc h
    simp only [nearestFold]
    by_cases hd : dist q l₀.coord < acc.2
    · rw [if_pos hd]
      exact nearestFold_isSome_acc dist q rest _ rfl
    · rw [if_neg hd]
      rcases h with ⟨l, hl, hlt⟩
      rcases List.mem_cons.mp hl with hhead | htail
      · subst hhead; exact absurd hlt hd
      · exact ih acc ⟨l, htail, hlt⟩

/-- Absolute value written with an explicit branch (the lattice `|·|`
does not evaluate on concrete rationals). -/
def ratAbs (x : ℚ) : ℚ := if x < 0 then -x else x

/-- A concrete computable stand-in distance used to instantiate the
abstract distance parameter in witnesses and counterexamples. -/
def taxicab (a b : Coordinate) : ℚ :=
  ratAbs (a.latitude - b.latitude) + ratAbs (a.longitude - b.longitude)

/-- **C1.** `FindNearest` fails with `NotFound` exactly on the empty
store; on every non-empty store it returns a stored location `L` and the
distance `d = dist(query, L.coord)`, and `d` is minimal among the
distances from the query to every stored location.  `dist` stands for
`geospatial.HaversineDistance`; the hypothesis that every distance is
below `math.MaxFloat64` holds for the haversine (which is bounded by
`π · 6371 km`). -/
theorem C1_findNearest (dist : Coordinate → Coordinate → ℚ)
    (lat lng : ℚ) (s : MemStore)
    (hbound : ∀ l ∈ memFindAll s,
      dist { latitude := lat, longitude := lng } l.coord < maxFloat64) :
    (memFindNearest dist lat lng s = .error .locationNotFound ↔
      s.locations = []) ∧
    (s.locations ≠ [] →
      ∃ L ∈ memFindAll s,
        memFindNearest dist lat lng s
          = .ok (some L, dist { latitude := lat, longitude := lng } L.coord) ∧
        ∀ M ∈ memFindAll s,
          dist { latitude := lat, longitude := lng } L.coord ≤
            dist { latitude := lat, longitude := lng } M.coord) := by
  constructor
  · cases hE : s.locations with
    | nil => simp [memFindNearest, hE]
    | cons a as => simp [memFindNearest, hE]
  · intro hne
    rcases hE : s.locations with _ | ⟨a, as⟩
    · exact absurd hE hne
    set q : Coordinate := { latitude := lat, longitude := lng } with hq
    have hmemAll : memFindAll s = (a :: as).map Prod.snd := by
      unfold memFindAll
      rw [hE]
    have hheadmem : a.2 ∈ memFindAll s := by
      rw [hmemAll]
      exact List.mem_map_of_mem Prod.snd (List.mem_cons_self _ _)
    have hsome :=
      nearestFold_isSome dist q ((a :: as).map Prod.snd) (none, maxFloat64)
        ⟨a.2, by
          refine ⟨List.mem_map_of_mem Prod.snd (List.mem_cons_self _ _), ?_⟩
          exact hbound a.2 hheadmem⟩
    rcases Option.isSome_iff_exists.mp hsome with ⟨L, hL⟩
    have hchar :=
      nearestFold_some dist q ((a :: as).map Prod.snd) (none, maxFloat64)
        (by intro L' hL'; cases hL') L hL
    have hLmem : L ∈ memFindAll s := by
      rw [hmemAll]
      rcases hchar.2 with h | h
      · exact h
      · cases h
    refine ⟨L, hLmem, ?_, ?_⟩
    · unfold memFindNearest
      rw [hE]
      simp only [List.isEmpty_cons, Bool.false_eq_true, if_false]
      congr 1
      have : nearestFold dist q (none, maxFloat64) ((a :: as).map Prod.snd)
          = (some L,
            nearestFold dist q (none, maxFloat64) ((a :: as).map Prod.snd)
              |>.2) := by
        exact Prod.ext hL rfl
      rw [this, hchar.1]
    · intro M hM
      rw [← hchar.1]
      apply nearestFold_min dist q ((a :: as).map Prod.snd) (none, maxFloat64)
      rw [hmemAll] at hM
      exact hM

/-- New York with integer coordinates, for witnesses. -/
def locNY : Location :=
  { id := "1", name := "NY", latitude := 40, longitude := -74, createdAt := 1 }

/-- Los Angeles with integer coordinates, for witnesses. -/
def locLA : Location :=
  { id := "2", name := "LA", latitude := 34, longitude := -118, createdAt := 1 }

/-- Chicago with integer coordinates, for witnesses. -/
def locCHI : Location :=
  { id := "3", name := "CHI", latitude := 41, longitude := -87, createdAt := 1 }

/-- A concrete three-city store mirroring the spec's example: New York,
Los Angeles, Chicago (coordinates rounded to integers to keep the
witness distance computations small; the distance function is `taxicab`
rather than the haversine, C1 being proved for every distance). -/
def cityStore : MemStore :=
  { locations := [("NY", locNY), ("LA", locLA), ("CHI", locCHI)]
    locationsById := []
    nextID := 4 }

/-- Witness for C1 at a concrete store of three cities and a concrete
distance function. -/
theorem C1_findNearest_witness :
    (∀ l ∈ memFindAll cityStore,
      taxicab { latitude := 42, longitude := -88 } l.coord < maxFloat64) ∧
    ((memFindNearest taxicab 42 (-88) cityStore = .error .locationNotFound ↔
        cityStore.locations = []) ∧
      (cityStore.locations ≠ [] →
        ∃ L ∈ memFindAll cityStore,
          memFindNearest taxicab 42 (-88) cityStore
            = .ok (some L,
                taxicab { latitude := 42, longitude := -88 } L.coord) ∧
          ∀ M ∈ memFindAll cityStore,
            taxicab { latitude := 42, longitude := -88 } L.coord ≤
              taxicab { latitude := 42, longitude := -88 } M.coord)) :=
  ⟨by
    norm_num [memFindAll, cityStore, taxicab, ratAbs, maxFloat64,
      Location.coord, locNY, locLA, locCHI],
   C1_findNearest taxicab 42 (-88) cityStore (by
    norm_num [memFindAll, cityStore, taxicab, ratAbs, maxFloat64,
      Location.coord, locNY, locLA, locCHI])⟩

/-- A location named `A`; its coordinate coincides with `locDupB`. -/
def locDupA : Location :=
  { id := "1", name := "A", latitude := 10, longitude := 5, createdAt := 0 }

/-- A location named `B` at the same coordinate as `locDupA`, so that the
two are equidistant from every query point under every distance
function. -/
def locDupB : Location :=
  { id := "2", name := "B", latitude := 10, longitude := 5, createdAt := 0 }

/-- A two-location store presented in one map iteration order. -/
def tieStore1 : MemStore :=
  { locations := [("A", locDupA), ("B", locDupB)]
    locationsById := [("1", locDupA), ("2", locDupB)]
    nextID := 3 }

/-- The same store contents presented in the other iteration order. -/
def tieStore2 : MemStore :=
  { locations := [("B", locDupB), ("A", locDupA)]
    locationsById := [("1", locDupA), ("2", locDupB)]
    nextID := 3 }

/-- **C7, counterexample.**  Two stores with identical contents (the
name map of one is a permutation of the other) but different iteration
orders: `FindNearest` returns location `A` for one order and location
`B` for the other, because the two stored locations are equidistant from
the query point and the strict comparison keeps the first one scanned.
Go randomizes map iteration order on every range loop, so two calls
against unchanged data may present the entries in either order. -/
theorem C7_counterexample :
    tieStore1.locations.Perm tieStore2.locations ∧
    memFindNearest taxicab 10 0 tieStore1 ≠
      memFindNearest taxicab 10 0 tieStore2 := by
  constructor
  · exact List.Perm.swap _ _ _
  · have h1 : memFindNearest taxicab 10 0 tieStore1 = .ok (some locDupA, 5) := by
      norm_num [memFindNearest, nearestFold, tieStore1, locDupA, locDupB,
        taxicab, ratAbs, maxFloat64, Location.coord]
    have h2 : memFindNearest taxicab 10 0 tieStore2 = .ok (some locDupB, 5) := by
      norm_num [memFindNearest, nearestFold, tieStore2, locDupA, locDupB,
        taxicab, ratAbs, maxFloat64, Location.coord]
    rw [h1, h2]
    simp [locDupA, locDupB]

/-- **C7, amended.**  `FindNearest` is a pure function of the entry list
it scans, and whenever the minimum-distance location is unique the
result does not depend on the iteration order at all: every ordering of
the same contents yields that unique minimizer together with its
distance.  (Only at exact ties does the winner depend on the iteration
order, which Go randomizes across calls.) -/
theorem C7_unique_min_deterministic (dist : Coordinate → Coordinate → ℚ)
    (lat lng : ℚ) (s : MemStore) (L : Location)
    (hL : L ∈ memFindAll s)
    (hb : dist { latitude := lat, longitude := lng } L.coord < maxFloat64)
    (huniq : ∀ M ∈ memFindAll s, M ≠ L →
      dist { latitude := lat, longitude := lng } L.coord <
        dist { latitude := lat, longitude := lng } M.coord) :
    memFindNearest dist lat lng s
      = .ok (some L, dist { latitude := lat, longitude := lng } L.coord) := by
  set q : Coordinate := { latitude := lat, longitude := lng } with hq
  have hne : s.locations ≠ [] := by
    intro hE
    rw [memFindAll, hE] at hL
    cases hL
  have hsome :=
    nearestFold_isSome dist q (s.locations.map Prod.snd) (none, maxFloat64)
      ⟨L, hL, hb⟩
  rcases Option.isSome_iff_exists.mp hsome with ⟨L', hL'⟩
  have hchar :=
    nearestFold_some dist q (s.locations.map Prod.snd) (none, maxFloat64)
      (by intro L'' hL''; cases hL'') L' hL'
  have hL'mem : L' ∈ memFindAll s := by
    rcases hchar.2 with h | h
    · exact h
    · cases h
  have hminL : (nearestFold dist q (none, maxFloat64)
      (s.locations.map Prod.snd)).2 ≤ dist q L.coord :=
    nearestFold_min dist q (s.locations.map Prod.snd) (none, maxFloat64) L hL
  have hLL' : L' = L := by
    by_contra hneq
    have hlt := huniq L' hL'mem hneq
    rw [← hchar.1] at hlt
    exact absurd (lt_of_lt_of_le hlt hminL) (lt_irrefl _)
  rw [hLL'] at hL' hchar
  unfold memFindNearest
  rw [if_neg (by simpa [List.isEmpty_iff] using hne)]
  congr 1
  calc nearestFold dist q (none, maxFloat64) (s.locations.map Prod.snd)
      = (some L, (nearestFold dist q (none, maxFloat64)
          (s.locations.map Prod.snd)).2) := Prod.ext hL' rfl
    _ = (some L, dist q L.coord) := by rw [hchar.1]

/-- Witness for the amended C7 at the three-city store, whose minimizer
for the query `(42, -88)` is unique (Chicago). -/
theorem C7_witness :
    locCHI ∈ memFindAll cityStore ∧
    memFindNearest taxicab 42 (-88) cityStore
      = .ok (some locCHI,
          taxicab { latitude := 42, longitude := -88 } locCHI.coord) :=
  ⟨by simp [memFindAll, cityStore],
   C7_unique_min_deterministic taxicab 42 (-88) cityStore locCHI
    (by simp [memFindAll, cityStore])
    (by norm_num [taxicab, ratAbs, maxFloat64, Location.coord, locCHI])
    (by
      intro M hM hne
      fin_cases hM <;>
        simp_all [locNY, locLA, locCHI, taxicab, ratAbs, Location.coord,
          cityStore, memFindAll] <;>
        norm_num)⟩

/-! ### C2: consistency of the two in-memory maps -/

/-- The two maps of the in-memory store hold the same set of locations:
every location reachable by name is reachable by id and vice versa. -/
def mapsConsistent (s : MemStore) : Prop :=
  ∀ l : Location,
    l ∈ s.locations.map Prod.snd ↔ l ∈ s.locationsById.map Prod.snd

/-- A fresh location for the C2 scenario. -/
def c2loc : Location :=
  { id := "", name := "A", latitude := 1, longitude := 2, createdAt := 5 }

/-- `c2loc` as stored, with the assigned id `"1"`. -/
def c2loc1 : Location :=
  { id := "1", name := "A", latitude := 1, longitude := 2, createdAt := 5 }

/-- The store after saving `c2loc` into the empty store. -/
def c2s1 : MemStore := (memSave c2loc emptyMemStore).2

/-- The store after then deleting `"A"`. -/
def c2s2 : MemStore := (memDelete "A" c2s1).2

/-- **C2.**  The sequence save `A`, delete `A` leaves the two maps
inconsistent: the name map is empty while the id map still holds the
deleted location, which `FindByID` still returns.  `Delete`
(location_repository.go lines 69-79) removes the entry from
`r.locations` only and never touches `r.locationsById`. -/
theorem C2_delete_desyncs_maps :
    (memSave c2loc emptyMemStore).1 = .ok () ∧
    (memDelete "A" c2s1).1 = .ok () ∧
    c2s2.locations = [] ∧
    c2s2.locationsById = [("1", c2loc1)] ∧
    memFindByID "1" c2s2 = .ok c2loc1 ∧
    ¬ mapsConsistent c2s2 := by
  refine ⟨by decide, by decide, by decide, by decide, by decide, ?_⟩
  intro h
  have h2 := (h c2loc1).mpr (by decide)
  exact absurd h2 (by decide)

/-! ### C4: what a successful save assigns -/

theorem toDigitsCore_ne_nil_acc :
    ∀ (f n : ℕ) (acc : List Char), acc ≠ [] →
      Nat.toDigitsCore 10 f n acc ≠ [] := by
  intro f
  induction f with
  | zero => intro n acc h; simpa [Nat.toDigitsCore] using h
  | succ f ih =>
    intro n acc h
    simp only [Nat.toDigitsCore]
    split
    · simp
    · exact ih _ _ (by simp)

theorem toDigits_ne_nil (n : ℕ) : Nat.toDigits 10 n ≠ [] := by
  unfold Nat.toDigits
  simp only [Nat.toDigitsCore]
  split
  · simp
  · exact toDigitsCore_ne_nil_acc _ _ _ (by simp)

/-- The decimal rendering of a natural number (`fmt.Sprintf("%d", n)`)
is never the empty string. -/
theorem toString_nat_ne_empty (n : ℕ) : toString n ≠ "" := by
  show Nat.repr n ≠ ""
  unfold Nat.repr
  intro h
  apply toDigits_ne_nil n
  have h2 := congrArg String.data h
  simpa [List.asString] using h2

theorem find?_none_append_single (m : List (String × Location)) (k : String)
    (v : Location) (h : m.find? (fun p => p.1 == k) = none) :
    (m ++ [(k, v)]).find? (fun p => p.1 == k) = some (k, v) := by
  induction m with
  | nil => simp
  | cons p rest ih =>
    rw [List.cons_append, List.find?]
    rw [List.find?] at h
    cases hp : (p.1 == k) with
    | true => rw [hp] at h; cases h
    | false => rw [hp] at h; exact ih h

theorem mapGet_none_find {m : List (String × Location)} {k : String}
    (h : mapGet m k = none) : m.find? (fun p => p.1 == k) = none := by
  unfold mapGet at h
  cases hf : m.find? (fun p => p.1 == k) with
  | none => rfl
  | some p => rw [hf] at h; cases h

theorem mapGet_append_single (m : List (String × Location)) (k : String)
    (v : Location) (h : mapGet m k = none) :
    mapGet (m ++ [(k, v)]) k = some v := by
  unfold mapGet
  rw [find?_none_append_single m k v (mapGet_none_find h)]
  rfl

/-- A location with unset id and zero creation time. -/
def c4loc : Location :=
  { id := "", name := "X", latitude := 1, longitude := 2, createdAt := 0 }

/-- `c4loc` as stored: id assigned, creation time still zero. -/
def c4loc1 : Location :=
  { id := "1", name := "X", latitude := 1, longitude := 2, createdAt := 0 }

/-- **C4, counterexample.**  The in-memory `Save` never assigns
`CreatedAt` (location_repository.go lines 27-43 set only `ID`): saving a
location whose `CreatedAt` is the zero value succeeds, and `FindByName`
returns it with `CreatedAt` still zero, contradicting "which are
non-empty and non-zero respectively". -/
theorem C4_counterexample :
    (memSave c4loc emptyMemStore).1 = .ok () ∧
    memFindByName "X" (memSave c4loc emptyMemStore).2 = .ok c4loc1 ∧
    ¬ (∀ found : Location,
        memFindByName "X" (memSave c4loc emptyMemStore).2 = .ok found →
        found.createdAt ≠ 0) := by
  refine ⟨by decide, by decide, ?_⟩
  intro h
  exact h c4loc1 (by decide) rfl

/-- **C4, amended.**  For a location whose id is unset and whose name is
absent, the in-memory save succeeds and assigns the non-empty id
`fmt.Sprintf("%d", nextID)`; an immediate `FindByName` returns the
location equal to the input in every field except `id` — in particular
`CreatedAt` is returned exactly as given, the in-memory backend never
assigning it (the service's `NewLocation` is what sets it; the postgres
backend assigns it via the database default). -/
theorem C4_amended (loc : Location) (s : MemStore)
    (hid : loc.id = "") (habs : mapGet s.locations loc.name = none) :
    (memSave loc s).1 = .ok () ∧
    memFindByName loc.name (memSave loc s).2
      = .ok { loc with id := toString s.nextID } ∧
    toString s.nextID ≠ "" ∧
    ({ loc with id := toString s.nextID } : Location).name = loc.name ∧
    ({ loc with id := toString s.nextID } : Location).latitude
      = loc.latitude ∧
    ({ loc with id := toString s.nextID } : Location).longitude
      = loc.longitude ∧
    ({ loc with id := toString s.nextID } : Location).createdAt
      = loc.createdAt := by
  have hstep : memSave loc s =
      (.ok (),
        { locations := mapPut s.locations loc.name
            { loc with id := toString s.nextID }
          locationsById := mapPut s.locationsById (toString s.nextID)
            { loc with id := toString s.nextID }
          nextID := s.nextID + 1 }) := by
    unfold memSave
    rw [habs]
    simp [hid]
  have hput : mapPut s.locations loc.name { loc with id := toString s.nextID }
      = s.locations ++ [(loc.name, { loc with id := toString s.nextID })] := by
    unfold mapPut
    rw [mapGet_none_find habs]
    rfl
  refine ⟨by rw [hstep], ?_, toString_nat_ne_empty s.nextID, rfl, rfl, rfl, rfl⟩
  rw [hstep]
  unfold memFindByName
  simp only [hput]
  rw [mapGet_append_single s.locations loc.name _ habs]

/-- A location with unset id and non-zero creation time, for the C4
witness. -/
def locNoId : Location :=
  { id := "", name := "P", latitude := 7, longitude := 8, createdAt := 9 }

/-- Witness for the amended C4 on the empty store. -/
theorem C4_witness :
    (locNoId.id = "" ∧ mapGet emptyMemStore.locations locNoId.name = none) ∧
    ((memSave locNoId emptyMemStore).1 = .ok () ∧
      memFindByName locNoId.name (memSave locNoId emptyMemStore).2
        = .ok { locNoId with id := toString emptyMemStore.nextID } ∧
      toString emptyMemStore.nextID ≠ "" ∧
      ({ locNoId with id := toString emptyMemStore.nextID } : Location).name
        = locNoId.name ∧
      ({ locNoId with id := toString emptyMemStore.nextID } :
          Location).latitude = locNoId.latitude ∧
      ({ locNoId with id := toString emptyMemStore.nextID } :
          Location).longitude = locNoId.longitude ∧
      ({ locNoId with id := toString emptyMemStore.nextID } :
          Location).createdAt = locNoId.createdAt) :=
  ⟨⟨rfl, rfl⟩, C4_amended locNoId emptyMemStore rfl rfl⟩

/-! ### C5, C6, C10 -/

/-- **C5.**  Construction fails exactly when the trimmed name is empty
or a coordinate is out of range (latitude outside `[-90, 90]`,
longitude outside `[-180, 180]`); in-range coordinates — zero included —
with a non-empty trimmed name always succeed; and when construction
fails, `CreateLocation` returns the validation error with the store
untouched and an empty trace of repository operations. -/
theorem C5_validation (name : String) (lat lng : ℚ) (now : ℤ)
    (s : MemStore) :
    ((∃ e, NewLocation name lat lng now = .error e) ↔
      (trimSpace name = "" ∨ lat < -90 ∨ 90 < lat ∨
        lng < -180 ∨ 180 < lng)) ∧
    (∀ e, NewLocation name lat lng now = .error e →
      CreateLocation name lat lng now s = (.error e, s, [])) := by
  constructor
  · unfold NewLocation validateLocation
    dsimp only
    split_ifs with h1 h2 h3
    · exact iff_of_true ⟨DomainError.emptyName, rfl⟩ (Or.inl h1)
    · exact iff_of_true ⟨DomainError.invalidLatitude, rfl⟩ (by tauto)
    · exact iff_of_true ⟨DomainError.invalidLongitude, rfl⟩ (by tauto)
    · rcases not_or.mp h2 with ⟨h2a, h2b⟩
      rcases not_or.mp h3 with ⟨h3a, h3b⟩
      refine iff_of_false (by simp) ?_
      rintro (h | h | h | h | h)
      · exact h1 h
      · exact h2a h
      · exact h2b h
      · exact h3a h
      · exact h3b h
  · intro e he
    unfold CreateLocation
    rw [he]

/-- Witness for C5: a whitespace-only name is rejected before any store
operation, and zero coordinates are accepted. -/
theorem C5_witness :
    NewLocation " " 1 2 3 = .error .emptyName ∧
    CreateLocation " " 1 2 3 emptyMemStore
      = (.error .emptyName, emptyMemStore, []) ∧
    NewLocation "B" 0 0 3
      = .ok { id := "", name := "B", latitude := 0, longitude := 0,
              createdAt := 3 } :=
  ⟨by decide,
   (C5_validation " " 1 2 3 emptyMemStore).2 .emptyName (by decide),
   by decide⟩

/-- **C6.**  A save whose name is already present fails with
`AlreadyExists` and returns the store in exactly the state it had — on
both backends: the in-memory `Save` returns before any mutation
(location_repository.go line 32), and the postgres `Save` performs the
existence check before the `INSERT` (postgres/location_repository.go
lines 21-24). -/
theorem C6_duplicate_save (loc : Location) (s : MemStore) (dbNow : ℤ)
    (db : PgDB)
    (hmem : (mapGet s.locations loc.name).isSome)
    (hpg : (db.rows.find? (fun r => r.name == loc.name)).isSome) :
    memSave loc s = (.error .locationExists, s) ∧
    pgSave loc dbNow db = (.error .locationExists, db) := by
  constructor
  · unfold memSave
    rw [if_pos hmem]
  · unfold pgSave pgFindByName
    rcases Option.isSome_iff_exists.mp hpg with ⟨r, hr⟩
    rw [hr]

/-- A one-row database holding the same name as `locDupA`, for the C6
witness. -/
def c6db : PgDB :=
  { rows := [{ rowId := 1, name := "A", latitude := 1, longitude := 2,
               createdAt := 5 }]
    nextId := 2 }

/-- Witness for C6: saving a second location named `A` into stores that
already hold an `A` fails on both backends and leaves both unchanged. -/
theorem C6_witness :
    ((mapGet tieStore1.locations locDupA.name).isSome = true ∧
      (c6db.rows.find? (fun r => r.name == locDupA.name)).isSome = true) ∧
    (memSave locDupA tieStore1 = (.error .locationExists, tieStore1) ∧
      pgSave locDupA 7 c6db = (.error .locationExists, c6db)) :=
  ⟨⟨by decide, by decide⟩,
   C6_duplicate_save locDupA tieStore1 7 c6db (by decide) (by decide)⟩

/-- **C10.**  Called with a nil location pointer, the in-memory `Save`
faults (nil-pointer dereference: line 31 reads `location.Name` before
any guard) instead of returning a typed error; on every non-nil
argument it returns normally. -/
theorem C10_nil_save (r : MemStore) :
    memSavePtr none r = .fault ∧
    (∀ ret, memSavePtr none r ≠ .returns ret) ∧
    (∀ loc, memSavePtr (some loc) r ≠ .fault) := by
  refine ⟨rfl, ?_, ?_⟩
  · intro ret h
    cases h
  · intro loc h
    cases h

/-! ### C9: unit-conversion round trip -/

/-- **C9.**  Both conversions are pure multiplications by the named
constants, so the round trip is exactly multiplication by
`1.609344 × 0.621371 = 0.999999690624`; for every `x ≥ 0` the round
trip therefore differs from `x` by at most `3.1·10⁻⁷ · x`. -/
theorem C9_roundtrip (x : ℚ) (hx : 0 ≤ x) :
    KmToMiles (MilesToKm x) = x * (999999690624 / 1000000000000) ∧
    |KmToMiles (MilesToKm x) - x| ≤ (31 / 100000000) * x := by
  have hval : KmToMiles (MilesToKm x) = x * (999999690624 / 1000000000000) := by
    unfold KmToMiles MilesToKm ratioKmToMiles ratioMilesToKm
    ring_nf
  refine ⟨hval, ?_⟩
  rw [hval]
  have h : x * (999999690624 / 1000000000000) - x
      = -(x * (309376 / 1000000000000)) := by ring
  rw [h, abs_neg, abs_of_nonneg (mul_nonneg hx (by norm_num))]
  have hc : (309376 / 1000000000000 : ℚ) ≤ 31 / 100000000 := by norm_num
  calc x * (309376 / 1000000000000) ≤ x * (31 / 100000000) :=
        mul_le_mul_of_nonneg_left hc hx
    _ = (31 / 100000000) * x := by ring

/-- Witness for C9 at `x = 2`. -/
theorem C9_witness :
    (0 : ℚ) ≤ 2 ∧
    (KmToMiles (MilesToKm 2) = 2 * (999999690624 / 1000000000000) ∧
      |KmToMiles (MilesToKm 2) - 2| ≤ (31 / 100000000) * 2) :=
  ⟨by norm_num, C9_roundtrip 2 (by norm_num)⟩

/-! ### C3: the indexed backend delegates the nearest-neighbor search -/

/-- The row selected by the engine's `ORDER BY distance LIMIT 1` is a
table row of minimal engine distance (the first row among ties). -/
theorem pgTopRow_spec (ed : Coordinate → Coordinate → ℚ) (q : Coordinate) :
    ∀ (rest : List PgRow) (first : PgRow),
      (pgTopRow ed q first rest = first ∨ pgTopRow ed q first rest ∈ rest) ∧
      ed q (pgTopRow ed q first rest).coord ≤ ed q first.coord ∧
      ∀ r ∈ rest, ed q (pgTopRow ed q first rest).coord ≤ ed q r.coord := by
  intro rest
  induction rest with
  | nil =>
    intro first
    refine ⟨Or.inl rfl, le_refl _, ?_⟩
    intro r hr
    cases hr
  | cons r₀ rs ih =>
    intro first
    have hstep : pgTopRow ed q first (r₀ :: rs)
        = pgTopRow ed q
            (if ed q r₀.coord < ed q first.coord then r₀ else first) rs := by
      unfold pgTopRow
      rfl
    by_cases hlt : ed q r₀.coord < ed q first.coord
    · rw [hstep, if_pos hlt]
      rcases ih r₀ with ⟨hmem, hle, hmin⟩
      refine ⟨?_, ?_, ?_⟩
      · rcases hmem with h | h
        · exact Or.inr (by rw [h]; exact List.mem_cons_self _ _)
        · exact Or.inr (List.mem_cons_of_mem _ h)
      · exact le_trans hle (le_of_lt hlt)
      · intro r hr
        rcases List.mem_cons.mp hr with h | h
        · exact h ▸ hle
        · exact hmin r h
    · rw [hstep, if_neg hlt]
      rcases ih first with ⟨hmem, hle, hmin⟩
      refine ⟨?_, hle, ?_⟩
      · rcases hmem with h | h
        · exact Or.inl h
        · exact Or.inr (List.mem_cons_of_mem _ h)
      · intro r hr
        rcases List.mem_cons.mp hr with h | h
        · exact h ▸ le_trans hle (le_of_not_lt hlt)
        · exact hmin r h

/-- **C3.**  With storage configured as `"postgres"`, the service's
`FindNearest` is the postgres repository's: it issues exactly one
external query and computes no in-process haversine distance, and its
answer is the external engine's top-1-by-distance row together with the
engine-computed distance — minimal among all rows — whereas the
in-memory backend issues no external query and calls the in-process
distance engine once per stored location (the O(n) scan). -/
theorem C3_indexed_delegation (dist engineDist : Coordinate → Coordinate → ℚ)
    (lat lng : ℚ) (db : PgDB) (repo : Repo)
    (hc : NewRepositoryFromConfig "postgres" db = .ok repo) :
    (serviceFindNearest dist engineDist repo lat lng).2
      = { engineQueries := 1, havCalls := 0 } ∧
    (serviceFindNearest dist engineDist repo lat lng).1
      = pgFindNearest engineDist lat lng db ∧
    (db.rows = [] →
      (serviceFindNearest dist engineDist repo lat lng).1
        = .error .locationNotFound) ∧
    (db.rows ≠ [] → ∃ row ∈ db.rows,
      (serviceFindNearest dist engineDist repo lat lng).1
        = .ok (some row.toLocation,
            engineDist { latitude := lat, longitude := lng } row.coord) ∧
      ∀ r ∈ db.rows,
        engineDist { latitude := lat, longitude := lng } row.coord ≤
          engineDist { latitude := lat, longitude := lng } r.coord) ∧
    (∀ ms : MemStore,
      (serviceFindNearest dist engineDist (.mem ms) lat lng).2
        = { engineQueries := 0, havCalls := ms.locations.length }) := by
  have hrepo : repo = .pg db := by
    have hred : NewRepositoryFromConfig "postgres" db = .ok (.pg db) := rfl
    rw [hred] at hc
    injection hc with h
    exact h.symm
  subst hrepo
  refine ⟨rfl, rfl, ?_, ?_, fun ms => rfl⟩
  · intro h
    simp [serviceFindNearest, pgFindNearest, h]
  · intro hne
    rcases hE : db.rows with _ | ⟨first, rest⟩
    · exact absurd hE hne
    rcases pgTopRow_spec engineDist
        { latitude := lat, longitude := lng } rest first with ⟨hmem, hle, hmin⟩
    refine ⟨pgTopRow engineDist { latitude := lat, longitude := lng } first rest,
      ?_, ?_, ?_⟩
    · rcases hmem with h | h
      · rw [h]
        exact List.mem_cons_self _ _
      · exact List.mem_cons_of_mem _ h
    · show pgFindNearest engineDist lat lng db = _
      unfold pgFindNearest
      rw [hE]
    · intro r hr
      rcases List.mem_cons.mp hr with h | h
      · rw [h]
        exact hle
      · exact hmin r h

/-- Witness for C3 on a one-row database. -/
theorem C3_witness :
    NewRepositoryFromConfig "postgres" c6db = .ok (.pg c6db) ∧
    (serviceFindNearest taxicab taxicab (.pg c6db) 0 0).2
      = { engineQueries := 1, havCalls := 0 } ∧
    (serviceFindNearest taxicab taxicab (.pg c6db) 0 0).1
      = pgFindNearest taxicab 0 0 c6db :=
  ⟨rfl,
   (C3_indexed_delegation taxicab taxicab 0 0 c6db (.pg c6db) rfl).1,
   (C3_indexed_delegation taxicab taxicab 0 0 c6db (.pg c6db) rfl).2.1⟩

/-! ### C8: returned values alias stored state -/

theorem get?_set_self :
    ∀ (l : List Location) (i : Nat) (v : Location),
      i < l.length → (l.set i v).get? i = some v := by
  intro l
  induction l with
  | nil => intro i v h; cases h
  | cons x xs ih =>
    intro i v h
    cases i with
    | zero => rfl
    | succ n => exact ih n v (Nat.lt_of_succ_lt_succ h)

/-- The argument of the C8 scenario. -/
def c8loc : Location :=
  { id := "", name := "A", latitude := 1, longitude := 2, createdAt := 5 }

/-- `c8loc` as stored (id assigned). -/
def c8locStored : Location :=
  { id := "1", name := "A", latitude := 1, longitude := 2, createdAt := 5 }

/-- What a caller turns the returned location into by writing through
the returned pointer (latitude overwritten). -/
def c8locMut : Location :=
  { id := "1", name := "A", latitude := 99, longitude := 2, createdAt := 5 }

/-- The store after saving `c8loc`. -/
def c8s1 : PtrStore := (ptrSave c8loc emptyPtrStore).2

/-- The store after the caller wrote `c8locMut` through the pointer
returned by `FindByName`. -/
def c8s2 : PtrStore := c8s1.write 0 c8locMut

/-- **C8, counterexample.**  `FindByName` returns the stored pointer
itself (location_repository.go line 54), not a copy: a caller writing
through it changes what the store subsequently reports for that name,
contradicting "mutating the returned value does not change the state
subsequently observed through the store". -/
theorem C8_counterexample :
    ptrFindByName "A" c8s1 = .ok 0 ∧
    ptrObserve "A" c8s1 = some c8locStored ∧
    ptrObserve "A" c8s2 = some c8locMut ∧
    ¬ (ptrObserve "A" c8s2 = ptrObserve "A" c8s1) :=
  ⟨by decide, by decide, by decide, by decide⟩

/-- **C8, amended.**  The in-memory read operations return references
that alias stored state: after a caller writes any value through the
pointer returned by `FindByName`, the store itself still resolves the
name to that pointer, and now observes the caller's value.  Callers
receive aliases, not copies, so they must refrain from mutation by
convention; the read operations themselves leave the store unchanged
(they are pure queries in this model). -/
theorem C8_alias (name : String) (s : PtrStore) (a : Nat) (l' : Location)
    (hfind : ptrFindByName name s = .ok a) (ha : a < s.heap.length) :
    ptrFindByName name (s.write a l') = .ok a ∧
    ptrObserve name (s.write a l') = some l' := by
  have hsame : ptrFindByName name (s.write a l') = ptrFindByName name s := rfl
  constructor
  · rw [hsame, hfind]
  · unfold ptrObserve
    rw [hsame, hfind]
    show (s.write a l').deref a = some l'
    unfold PtrStore.write PtrStore.deref
    exact get?_set_self s.heap a l' ha

/-- Witness for the amended C8. -/
theorem C8_witness :
    (ptrFindByName "A" c8s1 = .ok 0 ∧ 0 < c8s1.heap.length) ∧
    (ptrFindByName "A" (c8s1.write 0 c8locMut) = .ok 0 ∧
      ptrObserve "A" (c8s1.write 0 c8locMut) = some c8locMut) :=
  ⟨⟨by decide, by decide⟩,
   C8_alias "A" c8s1 0 c8locMut (by decide) (by decide)⟩

/-- Sanity check: an empty store reports `NotFound`. -/
theorem memFindByName_empty :
    memFindByName "A" emptyMemStore = .error .locationNotFound := by decide
